import Mathlib

/-!
Verification of the pyxray transition/subshell identity-and-lookup engine.

The definitions below are shallow embeddings of the Python sources:
* `pyxray/descriptor.py` — validated value objects (`AtomicShell`,
  `AtomicSubshell`, `Transition`, …);
* `src/pyxray/transition.py` — the transition catalog, Siegbahn
  ASCII/Unicode conversion, `Transition`/`transitionset` ordering,
  `get_transitions` and `from_string`;
* the SQL-backed element database (its implementation file is not part of
  the sources at hand; it is modelled from the specification, see the
  doc comments of the corresponding definitions).

Python exceptions are embedded as `Except` errors; machine floats that
only ever carry (half-)integral quantum-number arithmetic are embedded
as `ℚ`.
-/

set_option maxRecDepth 10000

/-! ### Descriptor layer (`pyxray/descriptor.py`) -/

/-- Structured rendering of the `ValueError`s raised by the descriptor
validators; each constructor carries exactly the values interpolated into
the corresponding Python error message. -/
inductive DescError where
  | principal (n : ℤ)
  | azimuthal (l lmin lmax : ℤ)
  | totalAngularMomentum (j_n : ℚ) (jmin_n jmax_n : ℚ)
  deriving DecidableEq

/-- `AtomicShell` descriptor: a principal quantum number. -/
structure AtomicShell where
  principal_quantum_number : ℤ
  deriving DecidableEq

/-- `AtomicShell.validate`: `n ≥ 1`, else `ValueError`. -/
def AtomicShell.validate (n : ℤ) : Except DescError AtomicShell :=
  if n < 1 then .error (.principal n) else .ok ⟨n⟩

/-- `AtomicSubshell` descriptor: shell, azimuthal quantum number and the
doubled total-angular-momentum nominator. -/
structure AtomicSubshell where
  atomic_shell : AtomicShell
  azimuthal_quantum_number : ℤ
  total_angular_momentum_nominator : ℤ
  deriving DecidableEq

/-- Derived attribute `n` of an `AtomicSubshell`. -/
def AtomicSubshell.n (s : AtomicSubshell) : ℤ :=
  s.atomic_shell.principal_quantum_number

/-- `AtomicSubshell.validate`: builds the shell (validating `n`), then
checks `lmin ≤ l ≤ lmax` with `lmin = 0`, `lmax = n - 1`, and
`jmin_n ≤ j_n ≤ jmax_n` with `jmin_n = 2|l - 0.5|`, `jmax_n = 2|l + 0.5|`,
raising a `ValueError` citing the computed bounds otherwise. -/
def AtomicSubshell.validate (n l j_n : ℤ) : Except DescError AtomicSubshell :=
  match AtomicShell.validate n with
  | .error e => .error e
  | .ok shell =>
    let lmin : ℤ := 0
    let lmax : ℤ := shell.principal_quantum_number - 1
    let jmin_n : ℚ := 2 * |(l : ℚ) - 0.5|
    let jmax_n : ℚ := 2 * |(l : ℚ) + 0.5|
    if l < lmin ∨ lmax < l then
      .error (.azimuthal l lmin lmax)
    else if (j_n : ℚ) < jmin_n ∨ jmax_n < (j_n : ℚ) then
      .error (.totalAngularMomentum (j_n : ℚ) jmin_n jmax_n)
    else
      .ok ⟨shell, l, j_n⟩

/-- `Transition` descriptor: source, destination and optional secondary
destination subshell. -/
structure Transition where
  source_subshell : AtomicSubshell
  destination_subshell : AtomicSubshell
  secondary_destination_subshell : Option AtomicSubshell
  deriving DecidableEq

/-- `Transition.validate`: the selection-rule check is commented out in the
source; the validator returns the argument tuple unchanged. -/
def Transition.validate (source_subshell destination_subshell : AtomicSubshell)
    (secondary_destination_subshell : Option AtomicSubshell) :
    Except DescError (AtomicSubshell × AtomicSubshell × Option AtomicSubshell) :=
  .ok (source_subshell, destination_subshell, secondary_destination_subshell)

/-- `Transition.is_radiative`: no secondary destination subshell. -/
def Transition.is_radiative (t : Transition) : Bool :=
  t.secondary_destination_subshell.isNone

/-- `Transition.is_nonradiative`. -/
def Transition.is_nonradiative (t : Transition) : Bool :=
  !t.is_radiative

/-- `Transition.is_coster_kronig`: source and destination share the same
principal quantum number. -/
def Transition.is_coster_kronig (t : Transition) : Bool :=
  t.source_subshell.n == t.destination_subshell.n

/-! ### Theorems for claims C1, C7, C9 -/

/-- C1 (amended): `AtomicSubshell` construction succeeds iff
`0 ≤ l ≤ n - 1` and `2|l − 0.5| ≤ j_n ≤ 2|l + 0.5|` — the nominator check
is an inclusive interval check between the two computed bounds, not a
membership test in the two-element set of the bounds. -/
theorem atomicSubshell_validate_ok_iff (n l j_n : ℤ) :
    (AtomicSubshell.validate n l j_n).isOk = true ↔
      (0 ≤ l ∧ l ≤ n - 1 ∧
        2 * |(l : ℚ) - 0.5| ≤ (j_n : ℚ) ∧ (j_n : ℚ) ≤ 2 * |(l : ℚ) + 0.5|) := by
  by_cases hn : n < 1
  · simp only [AtomicSubshell.validate, AtomicShell.validate, if_pos hn,
      Except.isOk, Except.toBool]
    constructor
    · intro h; simp at h
    · rintro ⟨h0, h1, -⟩; exfalso; omega
  · simp only [AtomicSubshell.validate, AtomicShell.validate, if_neg hn]
    split_ifs with h1 h2
    · simp only [Except.isOk, Except.toBool]
      constructor
      · intro h; simp at h
      · rintro ⟨h0, hle, -⟩; exfalso; omega
    · simp only [Except.isOk, Except.toBool]
      constructor
      · intro h; simp at h
      · rintro ⟨-, -, hlo, hhi⟩
        exfalso; rcases h2 with h2 | h2 <;> linarith
    · simp only [Except.isOk, Except.toBool, true_iff]
      push_neg at h1 h2
      exact ⟨h1.1, by omega, h2.1, h2.2⟩

/-- C1 counterexample: for `n = 2`, `l = 1` the nominator `j_n = 2` lies
strictly between the bounds `2|l−0.5| = 1` and `2|l+0.5| = 3`; the claim
says it is rejected, but validation succeeds. -/
theorem atomicSubshell_validate_accepts_strictly_between :
    (AtomicSubshell.validate 2 1 2).isOk = true ∧
      ¬(((2 : ℤ) : ℚ) = 2 * |((1 : ℤ) : ℚ) - 0.5| ∨
        ((2 : ℤ) : ℚ) = 2 * |((1 : ℤ) : ℚ) + 0.5|) := by
  have e1 : |((1 : ℤ) : ℚ) - 0.5| = 0.5 := by rw [abs_of_pos] <;> norm_num
  have e2 : |((1 : ℤ) : ℚ) + 0.5| = 1.5 := by rw [abs_of_pos] <;> norm_num
  constructor
  · have e3 : |(1 / 2 : ℚ)| = 1 / 2 := abs_of_pos (by norm_num)
    have e4 : |(3 / 2 : ℚ)| = 3 / 2 := abs_of_pos (by norm_num)
    have hok : AtomicSubshell.validate 2 1 2 = .ok ⟨⟨2⟩, 1, 2⟩ := by
      simp only [AtomicSubshell.validate, AtomicShell.validate]
      norm_num [e3, e4]
    rw [hok]; rfl
  · rw [e1, e2]; rintro (h | h) <;> norm_num at h

/-- C7: a nonradiative transition is Coster-Kronig iff its source and
destination subshells share the same principal quantum number. -/
theorem coster_kronig_iff_same_n (t : Transition) (_h : t.is_nonradiative = true) :
    t.is_coster_kronig = true ↔ t.source_subshell.n = t.destination_subshell.n := by
  simp [Transition.is_coster_kronig]

/-- C7 witness: a concrete nonradiative transition (L1 → L2 → M1) with a
shared principal quantum number. -/
theorem coster_kronig_iff_same_n_witness :
    (Transition.mk ⟨⟨2⟩, 0, 1⟩ ⟨⟨2⟩, 1, 1⟩ (some ⟨⟨3⟩, 0, 1⟩)).is_nonradiative = true ∧
      ((Transition.mk ⟨⟨2⟩, 0, 1⟩ ⟨⟨2⟩, 1, 1⟩ (some ⟨⟨3⟩, 0, 1⟩)).is_coster_kronig = true ↔
        (Transition.mk ⟨⟨2⟩, 0, 1⟩ ⟨⟨2⟩, 1, 1⟩ (some ⟨⟨3⟩, 0, 1⟩)).source_subshell.n =
          (Transition.mk ⟨⟨2⟩, 0, 1⟩ ⟨⟨2⟩, 1, 1⟩ (some ⟨⟨3⟩, 0, 1⟩)).destination_subshell.n) :=
  ⟨rfl, coster_kronig_iff_same_n _ rfl⟩

/-- C9: the `Transition` validator accepts any two or three subshells and
returns the argument tuple unchanged — no selection rule and no numeric
check is applied. -/
theorem transition_validate_always_ok
    (src dest : AtomicSubshell) (sec : Option AtomicSubshell) :
    Transition.validate src dest sec = .ok (src, dest, sec) :=
  rfl

/-! ### Siegbahn ASCII/Unicode conversion (`src/pyxray/transition.py`) -/

/-- The apostrophe character used by the ASCII Siegbahn encoding. -/
def apos : Char := Char.ofNat 39

/-- The prime character used by the Unicode Siegbahn encoding. -/
def prime : Char := Char.ofNat 0x2032

/-- One `str.replace(old, new)` step for a single-character pattern,
expressed at the character level. -/
def creplace (old new c : Char) : Char := if c = old then new else c

/-- `str.replace(old, new)` for a single-character pattern: every
occurrence of `old` is replaced by `new`. -/
def sreplace (s : List Char) (old new : Char) : List Char :=
  s.map (creplace old new)

/-- `_siegbahn_ascii_to_unicode`: replaces `a b g z n v l '` by
`α β γ ζ η ν ℓ ′`, one replacement pass per character, in source order. -/
def siegbahn_ascii_to_unicode (s : List Char) : List Char :=
  sreplace (sreplace (sreplace (sreplace (sreplace (sreplace (sreplace (sreplace
    s 'a' 'α') 'b' 'β') 'g' 'γ') 'z' 'ζ') 'n' 'η') 'v' 'ν') 'l' 'ℓ') apos prime

/-- `_siegbahn_unicode_to_ascii`: replaces `α β γ ζ η ν ℓ ′` by
`a b g z n v l '`, one replacement pass per character, in source order. -/
def siegbahn_unicode_to_ascii (s : List Char) : List Char :=
  sreplace (sreplace (sreplace (sreplace (sreplace (sreplace (sreplace (sreplace
    s 'α' 'a') 'β' 'b') 'γ' 'g') 'ζ' 'z') 'η' 'n') 'ν' 'v') 'ℓ' 'l') prime apos

/-- The character-level composite of the eight ASCII→Unicode replacement
steps. -/
def siegbahnCharToUnicode (c : Char) : Char :=
  creplace apos prime (creplace 'l' 'ℓ' (creplace 'v' 'ν' (creplace 'n' 'η'
    (creplace 'z' 'ζ' (creplace 'g' 'γ' (creplace 'b' 'β' (creplace 'a' 'α' c)))))))

/-- The character-level composite of the eight Unicode→ASCII replacement
steps. -/
def siegbahnCharToAscii (c : Char) : Char :=
  creplace prime apos (creplace 'ℓ' 'l' (creplace 'ν' 'v' (creplace 'η' 'n'
    (creplace 'ζ' 'z' (creplace 'γ' 'g' (creplace 'β' 'b' (creplace 'α' 'a' c)))))))

theorem siegbahn_ascii_to_unicode_nil : siegbahn_ascii_to_unicode [] = [] := rfl

theorem siegbahn_ascii_to_unicode_cons (c : Char) (s : List Char) :
    siegbahn_ascii_to_unicode (c :: s) =
      siegbahnCharToUnicode c :: siegbahn_ascii_to_unicode s := rfl

theorem siegbahn_unicode_to_ascii_nil : siegbahn_unicode_to_ascii [] = [] := rfl

theorem siegbahn_unicode_to_ascii_cons (c : Char) (s : List Char) :
    siegbahn_unicode_to_ascii (c :: s) =
      siegbahnCharToAscii c :: siegbahn_unicode_to_ascii s := rfl

theorem siegbahnChar_roundtrip_of_not_unicode (c : Char)
    (h1 : c ≠ 'α') (h2 : c ≠ 'β') (h3 : c ≠ 'γ') (h4 : c ≠ 'ζ')
    (h5 : c ≠ 'η') (h6 : c ≠ 'ν') (h7 : c ≠ 'ℓ') (h8 : c ≠ prime) :
    siegbahnCharToAscii (siegbahnCharToUnicode c) = c := by
  by_cases ca : c = 'a'
  · subst ca; decide
  by_cases cb : c = 'b'
  · subst cb; decide
  by_cases cg : c = 'g'
  · subst cg; decide
  by_cases cz : c = 'z'
  · subst cz; decide
  by_cases cn : c = 'n'
  · subst cn; decide
  by_cases cv : c = 'v'
  · subst cv; decide
  by_cases cl : c = 'l'
  · subst cl; decide
  by_cases cq : c = apos
  · subst cq; decide
  simp only [siegbahnCharToUnicode, siegbahnCharToAscii, creplace,
    if_neg ca, if_neg cb, if_neg cg, if_neg cz, if_neg cn, if_neg cv, if_neg cl, if_neg cq,
    if_neg h1, if_neg h2, if_neg h3, if_neg h4, if_neg h5, if_neg h6, if_neg h7, if_neg h8]

theorem siegbahnChar_roundtrip_of_not_ascii (c : Char)
    (h1 : c ≠ 'a') (h2 : c ≠ 'b') (h3 : c ≠ 'g') (h4 : c ≠ 'z')
    (h5 : c ≠ 'n') (h6 : c ≠ 'v') (h7 : c ≠ 'l') (h8 : c ≠ apos) :
    siegbahnCharToUnicode (siegbahnCharToAscii c) = c := by
  by_cases ca : c = 'α'
  · subst ca; decide
  by_cases cb : c = 'β'
  · subst cb; decide
  by_cases cg : c = 'γ'
  · subst cg; decide
  by_cases cz : c = 'ζ'
  · subst cz; decide
  by_cases cn : c = 'η'
  · subst cn; decide
  by_cases cv : c = 'ν'
  · subst cv; decide
  by_cases cl : c = 'ℓ'
  · subst cl; decide
  by_cases cq : c = prime
  · subst cq; decide
  simp only [siegbahnCharToUnicode, siegbahnCharToAscii, creplace,
    if_neg ca, if_neg cb, if_neg cg, if_neg cz, if_neg cn, if_neg cv, if_neg cl, if_neg cq,
    if_neg h1, if_neg h2, if_neg h3, if_neg h4, if_neg h5, if_neg h6, if_neg h7, if_neg h8]

theorem siegbahn_unicode_ascii_unicode_id (s : List Char)
    (hs : ∀ c ∈ s, c ∉ ['α', 'β', 'γ', 'ζ', 'η', 'ν', 'ℓ', prime]) :
    siegbahn_unicode_to_ascii (siegbahn_ascii_to_unicode s) = s := by
  induction s with
  | nil => rfl
  | cons c cs ih =>
    rw [siegbahn_ascii_to_unicode_cons, siegbahn_unicode_to_ascii_cons]
    have h := hs c (List.mem_cons_self c cs)
    simp only [List.mem_cons, List.not_mem_nil, or_false, not_or] at h
    obtain ⟨h1, h2, h3, h4, h5, h6, h7, h8⟩ := h
    rw [siegbahnChar_roundtrip_of_not_unicode c h1 h2 h3 h4 h5 h6 h7 h8,
      ih (fun d hd => hs d (List.mem_cons_of_mem c hd))]

theorem siegbahn_ascii_unicode_ascii_id (t : List Char)
    (ht : ∀ c ∈ t, c ∉ ['a', 'b', 'g', 'z', 'n', 'v', 'l', apos]) :
    siegbahn_ascii_to_unicode (siegbahn_unicode_to_ascii t) = t := by
  induction t with
  | nil => rfl
  | cons c cs ih =>
    rw [siegbahn_unicode_to_ascii_cons, siegbahn_ascii_to_unicode_cons]
    have h := ht c (List.mem_cons_self c cs)
    simp only [List.mem_cons, List.not_mem_nil, or_false, not_or] at h
    obtain ⟨h1, h2, h3, h4, h5, h6, h7, h8⟩ := h
    rw [siegbahnChar_roundtrip_of_not_ascii c h1 h2 h3 h4 h5 h6 h7 h8,
      ih (fun d hd => ht d (List.mem_cons_of_mem c hd))]

/-- C8: on strings free of the Unicode characters `α β γ ζ η ν ℓ ′`,
ASCII→Unicode followed by Unicode→ASCII is the identity; symmetrically, on
strings free of the ASCII characters `a b g z n v l '`, Unicode→ASCII
followed by ASCII→Unicode is the identity. -/
theorem siegbahn_conversions_mutually_inverse (s t : List Char)
    (hs : ∀ c ∈ s, c ∉ ['α', 'β', 'γ', 'ζ', 'η', 'ν', 'ℓ', prime])
    (ht : ∀ c ∈ t, c ∉ ['a', 'b', 'g', 'z', 'n', 'v', 'l', apos]) :
    siegbahn_unicode_to_ascii (siegbahn_ascii_to_unicode s) = s ∧
      siegbahn_ascii_to_unicode (siegbahn_unicode_to_ascii t) = t :=
  ⟨siegbahn_unicode_ascii_unicode_id s hs, siegbahn_ascii_unicode_ascii_id t ht⟩

/-- C8 witness: round-tripping the concrete ASCII token `Ka1` and the
concrete Unicode token `Kα1`. -/
theorem siegbahn_conversions_mutually_inverse_witness :
    siegbahn_unicode_to_ascii (siegbahn_ascii_to_unicode ['K', 'a', '1']) = ['K', 'a', '1'] ∧
      siegbahn_ascii_to_unicode (siegbahn_unicode_to_ascii ['K', 'α', '1']) = ['K', 'α', '1'] :=
  siegbahn_conversions_mutually_inverse ['K', 'a', '1'] ['K', 'α', '1']
    (by decide) (by decide)

/-! ### Transition catalog (`src/pyxray/transition.py`) -/

/-- `_SUBSHELLS`: (source, destination, satellite) subshell-index triples of
all transitions; the last seven entries are the satellite lines. -/
def SUBSHELLS : List (Nat × Nat × Nat) :=
  [(4, 1, 0), (3, 1, 0), (7, 1, 0), (12, 1, 0), (6, 1, 0), (14, 1, 0), (9, 1, 0),
   (11, 4, 0), (12, 4, 0), (18, 4, 0), (19, 4, 0), (24, 4, 0), (9, 4, 0), (8, 4, 0),
   (13, 4, 0), (14, 4, 0), (20, 4, 0), (10, 4, 0), (17, 4, 0), (5, 4, 0), (7, 4, 0),
   (6, 4, 0), (15, 4, 0), (6, 3, 0), (9, 3, 0), (11, 3, 0), (12, 3, 0), (14, 3, 0),
   (18, 3, 0), (19, 3, 0), (25, 3, 0), (8, 3, 0), (7, 3, 0), (13, 3, 0), (10, 3, 0),
   (20, 3, 0), (17, 3, 0), (5, 3, 0), (15, 3, 0), (5, 2, 0), (10, 2, 0), (13, 2, 0),
   (17, 2, 0), (20, 2, 0), (8, 2, 0), (7, 2, 0), (6, 2, 0), (9, 2, 0), (11, 2, 0),
   (14, 2, 0), (12, 2, 0), (19, 2, 0), (18, 2, 0), (11, 5, 0), (12, 5, 0), (8, 6, 0),
   (10, 6, 0), (13, 6, 0), (20, 6, 0), (8, 7, 0), (9, 7, 0), (10, 7, 0), (13, 7, 0),
   (17, 7, 0), (20, 7, 0), (21, 7, 0), (14, 7, 0), (12, 8, 0), (18, 8, 0), (15, 8, 0),
   (11, 8, 0), (19, 9, 0), (16, 9, 0), (15, 9, 0), (12, 9, 0), (15, 13, 0), (15, 14, 0),
   (4, 1, 1), (4, 1, 2), (4, 1, 3), (4, 1, 4), (4, 1, 5), (4, 1, 6), (7, 1, 1)]

/-- `_SIEGBAHNS`: the Siegbahn symbol of each catalog entry, aligned with
`SUBSHELLS`; the last seven entries are the satellite lines. -/
def SIEGBAHNS : List String :=
  ["Kα1", "Kα2", "Kβ1", "Kβ2", "Kβ3", "Kβ4", "Kβ5",
   "L3N2", "L3N3", "L3O2", "L3O3", "L3P1", "Lα1", "Lα2",
   "Lβ15", "Lβ2", "Lβ5", "Lβ6", "Lβ7", "Lℓ", "Ls",
   "Lt", "Lu", "L2M2", "L2M5", "L2N2", "L2N3", "L2N5",
   "L2O2", "L2O3", "L2P2", "Lβ1", "Lβ17", "Lγ1", "Lγ5",
   "Lγ6", "Lγ8", "Lη", "Lν", "L1M1", "L1N1", "L1N4",
   "L1O1", "L1O4", "Lβ10", "Lβ3", "Lβ4", "Lβ9", "Lγ2",
   "Lγ11", "Lγ3", "Lγ4", "Lγ4p", "M1N2", "M1N3", "M2M4",
   "M2N1", "M2N4", "M2O4", "M3M4", "M3M5", "M3N1", "M3N4",
   "M3O1", "M3O4", "M3O5", "Mγ", "M4N3", "M4O2", "Mβ",
   "Mζ2", "M5O3", "Mα1", "Mα2", "Mζ1", "N4N6", "N5N6",
   "SKα′", "SKα′′", "SKα3", "SKα4", "SKα5", "SKα6", "SKβ′"]

/-- Model of a `transition.Transition` instance: the fields of the Python
object that the ordering, grouping and range-query code reads. -/
structure TransitionRec where
  z : ℤ
  src : Nat
  dest : Nat
  satellite : Nat
  index : Nat
  energy_eV : ℚ
  probability : ℚ
  deriving DecidableEq

/-- `Transition.__eq__`: equality of `_index` and `_z`. -/
def transitionEq (a b : TransitionRec) : Bool :=
  a.index == b.index && a.z == b.z

/-- Python 2 `cmp` on integers. -/
def pycmp (a b : ℤ) : ℤ :=
  if a < b then -1 else if b < a then 1 else 0

/-- Python 2 `cmp` on the natural-number catalog indexes. -/
def pycmpN (a b : Nat) : ℤ :=
  if a < b then -1 else if b < a then 1 else 0

/-- Model of a constructed `transitionset` object: the `z` passed to the
constructor, the frozenset contents, and the cached most probable member. -/
structure transitionset where
  z : ℤ
  members : List TransitionRec
  most_probable : TransitionRec
  deriving DecidableEq

/-- The `frozenset` contents, in deterministic first-occurrence order, with
duplicates under `Transition.__eq__` removed. -/
def pyset (ts : List TransitionRec) : List TransitionRec :=
  ts.foldl (fun acc t => if acc.any (transitionEq t) then acc else acc ++ [t]) []

/-- The descending-probability relation used by
`sorted(self, key=attrgetter('probability'), reverse=True)`. -/
def probGe (a b : TransitionRec) : Prop :=
  b.probability ≤ a.probability

instance : DecidableRel probGe :=
  fun a b => inferInstanceAs (Decidable (b.probability ≤ a.probability))

/-- `transitionset.__init__`: requires a non-empty collection whose
transitions all carry one atomic number, stores the frozenset and caches the
most probable member (head of the probability-descending sort). -/
def transitionset_init (z : ℤ) (transitions : List TransitionRec) :
    Except String transitionset :=
  if transitions.isEmpty then
    .error "A transitionset must contain at least one transition"
  else if ((transitions.map TransitionRec.z).dedup).length ≠ 1 then
    .error "All transitions in a set must have the same atomic number"
  else
    match List.insertionSort probGe (pyset transitions) with
    | [] => .error "IndexError: list index out of range"
    | m :: _ => .ok ⟨z, pyset transitions, m⟩

/-- `sorted(map(attrgetter('_index'), ...))` on a member list. -/
def sortedIndexes (ts : List TransitionRec) : List Nat :=
  List.insertionSort (· ≤ ·) (ts.map TransitionRec.index)

/-- `itertools.izip_longest` on two index sequences with a fill value. -/
def izip_longest (fill : Nat) : List Nat → List Nat → List (Nat × Nat)
  | [], ys => ys.map (fun y => (fill, y))
  | x :: xs, [] => (x, fill) :: izip_longest fill xs []
  | x :: xs, y :: ys => (x, y) :: izip_longest fill xs ys

/-- The element-wise comparison loop of `transitionset.__cmp__`: the first
nonzero index comparison decides, with inverted sense. -/
def cmp_loop : List (Nat × Nat) → ℤ
  | [] => 0
  | (i, j) :: rest => if pycmpN i j ≠ 0 then -1 * pycmpN i j else cmp_loop rest

/-- `transitionset.__cmp__`: atomic numbers first, then the comparison loop
over the sorted index sequences zipped with fill value `79`. -/
def transitionset_cmp (a b : transitionset) : ℤ :=
  if pycmp a.z b.z ≠ 0 then pycmp a.z b.z
  else cmp_loop (izip_longest 79 (sortedIndexes a.members) (sortedIndexes b.members))

/-- Specification-style reading of the set ordering: pad both sorted index
sequences to a common length with the sentinel, compare lexicographically,
and invert the sense. -/
def padTo (fill len : Nat) (xs : List Nat) : List Nat :=
  xs ++ List.replicate (len - xs.length) fill

/-- Plain lexicographic three-way comparison of equal-length index lists. -/
def lexCmp : List Nat → List Nat → ℤ
  | x :: xs, y :: ys => if x < y then -1 else if y < x then 1 else lexCmp xs ys
  | _, _ => 0

/-- The ordering the specification describes: z ascending, then the padded
lexicographic index comparison with inverted (descending) sense. -/
def transitionset_cmp_spec (a b : transitionset) : ℤ :=
  if a.z < b.z then -1
  else if b.z < a.z then 1
  else
    -lexCmp
      (padTo 79 (max (sortedIndexes a.members).length (sortedIndexes b.members).length)
        (sortedIndexes a.members))
      (padTo 79 (max (sortedIndexes a.members).length (sortedIndexes b.members).length)
        (sortedIndexes b.members))

theorem padTo_self (fill : Nat) (xs : List Nat) : padTo fill xs.length xs = xs := by
  simp [padTo]

theorem padTo_nil (fill m : Nat) : padTo fill m [] = List.replicate m fill := by
  simp [padTo]

theorem padTo_cons (fill m x : Nat) (xs : List Nat) :
    padTo fill (m + 1) (x :: xs) = x :: padTo fill m xs := by
  simp [padTo, Nat.succ_sub_succ]

theorem cmp_loop_izip (fill : Nat) :
    ∀ xs ys : List Nat,
      cmp_loop (izip_longest fill xs ys) =
        -lexCmp (padTo fill (max xs.length ys.length) xs)
          (padTo fill (max xs.length ys.length) ys)
  | [], [] => by simp [izip_longest, cmp_loop, padTo, lexCmp]
  | x :: xs, [] => by
    have ih := cmp_loop_izip fill xs []
    simp only [List.length_nil, Nat.max_zero, padTo_self, padTo_nil] at ih
    rw [izip_longest, cmp_loop, List.length_nil, Nat.max_zero, padTo_self, padTo_nil,
      List.length_cons, List.replicate_succ, lexCmp]
    rcases Nat.lt_trichotomy x fill with h | h | h
    · have hp : pycmpN x fill = -1 := by simp [pycmpN, h]
      rw [hp, if_pos h]
      norm_num
    · subst h
      have hp : pycmpN x x = 0 := by simp [pycmpN]
      rw [hp, if_neg (lt_irrefl x), if_neg (lt_irrefl x)]
      simpa using ih
    · have hp : pycmpN x fill = 1 := by simp [pycmpN, Nat.lt_asymm h, h]
      rw [hp, if_neg (Nat.lt_asymm h), if_pos h]
      norm_num
  | [], y :: ys => by
    have ih := cmp_loop_izip fill [] ys
    simp only [List.length_nil, Nat.zero_max, padTo_self, padTo_nil, izip_longest] at ih
    rw [izip_longest, List.map_cons, cmp_loop, List.length_nil, Nat.zero_max, padTo_self,
      padTo_nil, List.length_cons, List.replicate_succ, lexCmp]
    rcases Nat.lt_trichotomy fill y with h | h | h
    · have hp : pycmpN fill y = -1 := by simp [pycmpN, h]
      rw [hp, if_pos h]
      norm_num
    · subst h
      have hp : pycmpN fill fill = 0 := by simp [pycmpN]
      rw [hp, if_neg (lt_irrefl fill), if_neg (lt_irrefl fill)]
      simpa using ih
    · have hp : pycmpN fill y = 1 := by simp [pycmpN, Nat.lt_asymm h, h]
      rw [hp, if_neg (Nat.lt_asymm h), if_pos h]
      norm_num
  | x :: xs, y :: ys => by
    have ih := cmp_loop_izip fill xs ys
    rw [izip_longest, cmp_loop, List.length_cons, List.length_cons, Nat.succ_max_succ,
      padTo_cons, padTo_cons, lexCmp]
    rcases Nat.lt_trichotomy x y with h | h | h
    · have hp : pycmpN x y = -1 := by simp [pycmpN, h]
      rw [hp, if_pos h]
      norm_num
    · subst h
      have hp : pycmpN x x = 0 := by simp [pycmpN]
      rw [hp, if_neg (lt_irrefl x), if_neg (lt_irrefl x)]
      simpa using ih
    · have hp : pycmpN x y = 1 := by simp [pycmpN, Nat.lt_asymm h, h]
      rw [hp, if_neg (Nat.lt_asymm h), if_pos h]
      norm_num

theorem transitionset_cmp_eq_spec (a b : transitionset) :
    transitionset_cmp a b = transitionset_cmp_spec a b := by
  rw [transitionset_cmp, transitionset_cmp_spec]
  rcases lt_trichotomy a.z b.z with h | h | h
  · have hp : pycmp a.z b.z = -1 := by simp [pycmp, h]
    rw [hp, if_pos (by norm_num : (-1 : ℤ) ≠ 0), if_pos h]
  · have hp : pycmp a.z b.z = 0 := by simp [pycmp, h]
    rw [hp, if_neg (by norm_num : ¬((0 : ℤ) ≠ 0)), if_neg (by simp [h] : ¬a.z < b.z),
      if_neg (by simp [h] : ¬b.z < a.z)]
    exact cmp_loop_izip 79 (sortedIndexes a.members) (sortedIndexes b.members)
  · have hp : pycmp a.z b.z = 1 := by simp [pycmp, h, not_lt_of_gt h]
    rw [hp, if_pos (by norm_num : (1 : ℤ) ≠ 0), if_neg (not_lt_of_gt h), if_pos h]

/-- A sample transition record: catalog index 0 (Kα1) for z 26. -/
def trIdx0 : TransitionRec := ⟨26, 4, 1, 0, 0, 6400, 1⟩

/-- A sample transition record: catalog index 79 (a satellite entry) for
z 26. -/
def trIdx79 : TransitionRec := ⟨26, 4, 1, 3, 79, 7000, 1⟩

/-- C5 (amended): `transitionset` ordering compares the sorted catalog-index
sequences element-wise after padding the shorter one with the sentinel `79`,
with the comparison sense inverted; the sentinel is strictly greater than
every diagram-line (satellite 0) index of the catalog, but not greater than
every satellite index. -/
theorem transitionset_cmp_description (a b : transitionset) :
    transitionset_cmp a b = transitionset_cmp_spec a b ∧
      (∀ i ∈ List.range SUBSHELLS.length, (SUBSHELLS.getD i (0, 0, 0)).2.2 = 0 → i < 79) ∧
      (∃ i ∈ List.range SUBSHELLS.length, (SUBSHELLS.getD i (0, 0, 0)).2.2 ≠ 0 ∧ 79 ≤ i) :=
  ⟨transitionset_cmp_eq_spec a b, by decide, by decide⟩

/-- C5 witness: the padded-lexicographic description evaluated on two
concrete transition sets, and the sentinel bound for the diagram-line
index 0. -/
theorem transitionset_cmp_description_witness :
    transitionset_cmp ⟨26, [trIdx0, trIdx79], trIdx0⟩ ⟨26, [trIdx0], trIdx0⟩ =
        transitionset_cmp_spec ⟨26, [trIdx0, trIdx79], trIdx0⟩ ⟨26, [trIdx0], trIdx0⟩ ∧
      (0 : Nat) < 79 :=
  ⟨(transitionset_cmp_description ⟨26, [trIdx0, trIdx79], trIdx0⟩ ⟨26, [trIdx0], trIdx0⟩).1,
    (transitionset_cmp_description ⟨26, [trIdx0, trIdx79], trIdx0⟩
      ⟨26, [trIdx0], trIdx0⟩).2.1 0 (by decide) (by decide)⟩

/-- C5 counterexample: the catalog has 84 entries; entry 83 is a satellite
entry whose index is not below the sentinel `79`, so the pad value does not
exceed every catalog index. In consequence the member sets with indexes
{0, 79} and {0} — which differ — compare equal. -/
theorem transitionset_fill_not_above_all_indexes :
    SUBSHELLS.length = 84 ∧
      (SUBSHELLS.getD 83 (0, 0, 0)).2.2 ≠ 0 ∧
      ¬(83 < 79) ∧
      transitionset_cmp ⟨26, [trIdx0, trIdx79], trIdx0⟩ ⟨26, [trIdx0], trIdx0⟩ = 0 ∧
      ([trIdx0, trIdx79].length ≠ [trIdx0].length) := by
  refine ⟨by decide, by decide, by decide, ?_, by decide⟩
  decide

theorem pyset_foldl_ne_nil (ts : List TransitionRec) :
    ∀ acc : List TransitionRec, acc ≠ [] →
      ts.foldl (fun acc t => if acc.any (transitionEq t) then acc else acc ++ [t]) acc ≠ [] := by
  induction ts with
  | nil => intro acc h; simpa using h
  | cons t ts ih =>
    intro acc h
    rw [List.foldl_cons]
    apply ih
    split
    · exact h
    · simp

theorem pyset_foldl_mem (ts : List TransitionRec) :
    ∀ (acc : List TransitionRec) (x : TransitionRec),
      x ∈ ts.foldl (fun acc t => if acc.any (transitionEq t) then acc else acc ++ [t]) acc →
        x ∈ acc ∨ x ∈ ts := by
  induction ts with
  | nil => intro acc x h; left; simpa using h
  | cons t ts ih =>
    intro acc x h
    rw [List.foldl_cons] at h
    rcases ih _ x h with hacc | hts
    · by_cases hb : acc.any (transitionEq t) = true
      · rw [if_pos hb] at hacc
        exact Or.inl hacc
      · rw [if_neg hb] at hacc
        rcases List.mem_append.mp hacc with h1 | h1
        · exact Or.inl h1
        · right
          simp only [List.mem_singleton] at h1
          simp [h1]
    · exact Or.inr (List.mem_cons_of_mem t hts)

theorem pyset_ne_nil (t : TransitionRec) (ts : List TransitionRec) : pyset (t :: ts) ≠ [] := by
  rw [pyset, List.foldl_cons]
  refine pyset_foldl_ne_nil ts _ ?_
  simp

theorem pyset_subset (l : List TransitionRec) (x : TransitionRec) (h : x ∈ pyset l) : x ∈ l := by
  rw [pyset] at h
  rcases pyset_foldl_mem l [] x h with h1 | h1
  · simp at h1
  · exact h1

theorem dedup_length_one_iff (l : List ℤ) :
    l.dedup.length = 1 ↔ l ≠ [] ∧ ∀ a ∈ l, ∀ b ∈ l, a = b := by
  constructor
  · intro h
    obtain ⟨x, hx⟩ := List.length_eq_one.mp h
    have hmem : ∀ a ∈ l, a = x := by
      intro a ha
      have hd : a ∈ l.dedup := List.mem_dedup.mpr ha
      rw [hx] at hd
      simpa using hd
    refine ⟨?_, fun a ha b hb => (hmem a ha).trans (hmem b hb).symm⟩
    intro hnil
    rw [hnil] at hx
    simp at hx
  · rintro ⟨hne, hall⟩
    obtain ⟨c, cs, rfl⟩ := List.exists_cons_of_ne_nil hne
    have hmemd : ∀ a ∈ (c :: cs).dedup, a = c := fun a ha =>
      hall a (List.mem_dedup.mp ha) c (List.mem_cons_self c cs)
    have hcd : c ∈ (c :: cs).dedup := List.mem_dedup.mpr (List.mem_cons_self c cs)
    have hnd := List.nodup_dedup (c :: cs)
    rcases hdl : (c :: cs).dedup with _ | ⟨d, ds⟩
    · rw [hdl] at hcd
      simp at hcd
    · rw [hdl] at hmemd hnd
      rcases ds with _ | ⟨e, es⟩
      · simp
      · exfalso
        have hd : d = c := hmemd d (by simp)
        have he : e = c := hmemd e (by simp)
        rw [List.nodup_cons] at hnd
        exact hnd.1 (by simp [hd, he])

/-- C10: every successfully constructed `transitionset` is non-empty, all
its member transitions share one atomic number and its `most_probable`
member belongs to the set; the constructor errors on an empty collection
and on transitions with differing atomic numbers. -/
theorem transitionset_init_invariants (z : ℤ) (ts : List TransitionRec) :
    (∀ s, transitionset_init z ts = .ok s →
        s.members ≠ [] ∧ (∀ t ∈ s.members, ∀ u ∈ s.members, t.z = u.z) ∧
          s.most_probable ∈ s.members) ∧
      transitionset_init z [] = .error "A transitionset must contain at least one transition" ∧
      ((∃ t ∈ ts, ∃ u ∈ ts, t.z ≠ u.z) → ∃ e, transitionset_init z ts = .error e) := by
  refine ⟨?_, rfl, ?_⟩
  · intro s hok
    rw [transitionset_init] at hok
    by_cases hemp : ts.isEmpty
    · rw [if_pos hemp] at hok
      simp at hok
    rw [if_neg hemp] at hok
    by_cases hded : ((ts.map TransitionRec.z).dedup).length ≠ 1
    · rw [if_pos hded] at hok
      simp at hok
    rw [if_neg hded] at hok
    push_neg at hded
    rcases hsort : List.insertionSort probGe (pyset ts) with _ | ⟨m, rest⟩
    · rw [hsort] at hok
      simp at hok
    · rw [hsort] at hok
      simp only [Except.ok.injEq] at hok
      subst hok
      obtain ⟨c, cs, rfl⟩ : ∃ c cs, ts = c :: cs := by
        cases ts
        · simp at hemp
        · exact ⟨_, _, rfl⟩
      refine ⟨pyset_ne_nil c cs, ?_, ?_⟩
      · intro t ht u hu
        have hall := ((dedup_length_one_iff ((c :: cs).map TransitionRec.z)).mp hded).2
        exact hall t.z (List.mem_map_of_mem _ (pyset_subset _ t ht))
          u.z (List.mem_map_of_mem _ (pyset_subset _ u hu))
      · have hm : m ∈ List.insertionSort probGe (pyset (c :: cs)) := by
          rw [hsort]
          exact List.mem_cons_self m rest
        exact ((List.perm_insertionSort probGe (pyset (c :: cs))).mem_iff).mp hm
  · rintro ⟨t, ht, u, hu, hne⟩
    rw [transitionset_init]
    have hts : ¬ts.isEmpty := by
      cases ts
      · simp at ht
      · simp
    rw [if_neg hts]
    have hded : ((ts.map TransitionRec.z).dedup).length ≠ 1 := by
      intro hl
      have hall := ((dedup_length_one_iff _).mp hl).2
      exact hne (hall t.z (List.mem_map_of_mem _ ht) u.z (List.mem_map_of_mem _ hu))
    rw [if_pos hded]
    exact ⟨_, rfl⟩

/-- C10 witness: the invariants evaluated on the concrete singleton set
built from `trIdx0` (z 26). -/
theorem transitionset_init_invariants_witness :
    (⟨26, [trIdx0], trIdx0⟩ : transitionset).members ≠ [] ∧
      (∀ t ∈ (⟨26, [trIdx0], trIdx0⟩ : transitionset).members,
        ∀ u ∈ (⟨26, [trIdx0], trIdx0⟩ : transitionset).members, t.z = u.z) ∧
      (⟨26, [trIdx0], trIdx0⟩ : transitionset).most_probable ∈
        (⟨26, [trIdx0], trIdx0⟩ : transitionset).members :=
  (transitionset_init_invariants 26 [trIdx0]).1 ⟨26, [trIdx0], trIdx0⟩ rfl

/-! ### Range queries: `get_transitions` (`src/pyxray/transition.py`) -/

/-- Modelled from the spec: the `transition_data` property-store module
consulted by `transition.py` is not among the sources at hand. Per the
specification the store answers existence/energy/probability queries for a
subject identity consisting of the atomic number and the
(source, destination, satellite) subshell triple, where satellite index 0
denotes the main diagram line; a query made with a two-element
(source, destination) tuple refers to the diagram line, satellite 0. -/
structure TransitionData where
  td_exists : ℤ → Nat → Nat → Nat → Bool
  td_energy_eV : ℤ → Nat → Nat → Nat → ℚ
  td_probability : ℤ → Nat → Nat → Nat → ℚ

/-- `Transition.__init__` on the explicit-subshells path: the catalog index
of the triple, and energy/probability resolved for the full subject
including the satellite index. (Modelled for catalog triples, the only
arguments `get_transitions` passes.) -/
def mkTransition (td : TransitionData) (z : ℤ) (src dest satellite : Nat) : TransitionRec :=
  { z := z
    src := src
    dest := dest
    satellite := satellite
    index := SUBSHELLS.indexOf (src, dest, satellite)
    energy_eV := td.td_energy_eV z src dest satellite
    probability := td.td_probability z src dest satellite }

/-- The `Transition.__cmp__` order as a relation: atomic number ascending,
then catalog index descending. -/
def transition_order (a b : TransitionRec) : Prop :=
  a.z < b.z ∨ (a.z = b.z ∧ b.index ≤ a.index)

instance : DecidableRel transition_order :=
  fun a b => inferInstanceAs (Decidable (a.z < b.z ∨ (a.z = b.z ∧ b.index ≤ a.index)))

instance : IsTotal TransitionRec transition_order where
  total := by
    intro a b
    rcases lt_trichotomy a.z b.z with h | h | h
    · exact Or.inl (Or.inl h)
    · rcases Nat.le_total b.index a.index with hi | hi
      · exact Or.inl (Or.inr ⟨h, hi⟩)
      · exact Or.inr (Or.inr ⟨h.symm, hi⟩)
    · exact Or.inr (Or.inl h)

instance : IsTrans TransitionRec transition_order where
  trans := by
    intro a b c hab hbc
    rcases hab with h1 | ⟨h1, h1i⟩ <;> rcases hbc with h2 | ⟨h2, h2i⟩
    · exact Or.inl (h1.trans h2)
    · exact Or.inl (h2 ▸ h1)
    · exact Or.inl (h1 ▸ h2)
    · exact Or.inr ⟨h1.trans h2, h2i.trans h1i⟩

/-- `get_transitions`: walk the catalog skipping satellites unless
requested, keep the entries for which the store has a diagram-line row for
`z` with diagram-line energy inside the inclusive limits, and sort the
built transitions ascending in `Transition.__cmp__` order. -/
def get_transitions (td : TransitionData) (z : ℤ)
    (energylow_eV energyhigh_eV : ℚ) (include_satellite : Bool) : List TransitionRec :=
  List.insertionSort transition_order
    (SUBSHELLS.filterMap (fun sds =>
      if include_satellite = false ∧ sds.2.2 ≠ 0 then none
      else if td.td_exists z sds.1 sds.2.1 0 = false then none
      else if td.td_energy_eV z sds.1 sds.2.1 0 < energylow_eV ∨
          energyhigh_eV < td.td_energy_eV z sds.1 sds.2.1 0 then none
      else some (mkTransition td z sds.1 sds.2.1 sds.2.2)))

/-- C3 (amended): `get_transitions` returns exactly the transitions built
from the catalog entries whose diagram line (satellite index 0) exists for
`z` and whose diagram-line energy lies in the inclusive range, with
satellite entries excluded unless requested; the result is sorted ascending
by atomic number then descending by catalog index (all returned transitions
carry `z`, so the index is descending), and when satellites are excluded
every returned transition's own resolved energy lies in the inclusive
range. -/
theorem get_transitions_characterization (td : TransitionData) (z : ℤ)
    (energylow_eV energyhigh_eV : ℚ) (include_satellite : Bool) :
    (∀ t, t ∈ get_transitions td z energylow_eV energyhigh_eV include_satellite ↔
        ((t.src, t.dest, t.satellite) ∈ SUBSHELLS ∧
          t = mkTransition td z t.src t.dest t.satellite ∧
          (include_satellite = true ∨ t.satellite = 0) ∧
          td.td_exists z t.src t.dest 0 = true ∧
          energylow_eV ≤ td.td_energy_eV z t.src t.dest 0 ∧
          td.td_energy_eV z t.src t.dest 0 ≤ energyhigh_eV)) ∧
      (get_transitions td z energylow_eV energyhigh_eV include_satellite).Pairwise
        transition_order ∧
      (∀ t ∈ get_transitions td z energylow_eV energyhigh_eV include_satellite, t.z = z) ∧
      (include_satellite = false →
        ∀ t ∈ get_transitions td z energylow_eV energyhigh_eV include_satellite,
          t.satellite = 0 ∧ energylow_eV ≤ t.energy_eV ∧ t.energy_eV ≤ energyhigh_eV) := by
  have hmem : ∀ t, t ∈ get_transitions td z energylow_eV energyhigh_eV include_satellite ↔
      ((t.src, t.dest, t.satellite) ∈ SUBSHELLS ∧
        t = mkTransition td z t.src t.dest t.satellite ∧
        (include_satellite = true ∨ t.satellite = 0) ∧
        td.td_exists z t.src t.dest 0 = true ∧
        energylow_eV ≤ td.td_energy_eV z t.src t.dest 0 ∧
        td.td_energy_eV z t.src t.dest 0 ≤ energyhigh_eV) := by
    intro t
    rw [get_transitions, (List.perm_insertionSort transition_order _).mem_iff,
      List.mem_filterMap]
    constructor
    · rintro ⟨sds, hsds, hf⟩
      by_cases h1 : include_satellite = false ∧ sds.2.2 ≠ 0
      · rw [if_pos h1] at hf
        exact absurd hf (by simp)
      rw [if_neg h1] at hf
      by_cases h2 : td.td_exists z sds.1 sds.2.1 0 = false
      · rw [if_pos h2] at hf
        exact absurd hf (by simp)
      rw [if_neg h2] at hf
      by_cases h3 : td.td_energy_eV z sds.1 sds.2.1 0 < energylow_eV ∨
          energyhigh_eV < td.td_energy_eV z sds.1 sds.2.1 0
      · rw [if_pos h3] at hf
        exact absurd hf (by simp)
      rw [if_neg h3] at hf
      simp only [Option.some.injEq] at hf
      subst hf
      push_neg at h3
      refine ⟨hsds, rfl, ?_, ?_, h3.1, h3.2⟩
      · cases include_satellite with
        | false =>
          right
          by_contra hs
          exact h1 ⟨rfl, hs⟩
        | true => exact Or.inl rfl
      · cases hx : td.td_exists z sds.1 sds.2.1 0
        · exact absurd hx h2
        · exact hx
    · rintro ⟨hin, heq, hsat, hex, hlo, hhi⟩
      refine ⟨(t.src, t.dest, t.satellite), hin, ?_⟩
      dsimp only
      split_ifs with hc1 hc2 hc3
      · obtain ⟨hb, hs⟩ := hc1
        rcases hsat with hs' | hs'
        · simp [hs'] at hb
        · exact hs hs'
      · simp [hex] at hc2
      · rcases hc3 with h | h
        · exact absurd h (not_lt.mpr hlo)
        · exact absurd h (not_lt.mpr hhi)
      · exact congrArg some heq.symm
  refine ⟨hmem, ?_, ?_, ?_⟩
  · exact List.sorted_insertionSort transition_order _
  · intro t ht
    have h := ((hmem t).mp ht).2.1
    rw [h]
    rfl
  · intro hinc t ht
    obtain ⟨-, heq, hsat, -, hlo, hhi⟩ := (hmem t).mp ht
    have hs0 : t.satellite = 0 := by
      rcases hsat with hs | hs
      · rw [hinc] at hs
        cases hs
      · exact hs
    have he : t.energy_eV = td.td_energy_eV z t.src t.dest t.satellite :=
      congrArg TransitionRec.energy_eV heq
    rw [hs0] at he
    exact ⟨hs0, he ▸ hlo, he ▸ hhi⟩

/-- A concrete instance of the modelled property store: only the `(4, 1)`
source/destination pair exists; its diagram line (satellite 0) has energy
6400 eV while every satellite line of it has energy 999999 eV. -/
def tdSat : TransitionData where
  td_exists := fun _ src dest _ => decide ((src, dest) = (4, 1))
  td_energy_eV := fun _ _ _ satellite => if satellite = 0 then 6400 else 999999
  td_probability := fun _ _ _ _ => 1

/-- C3 counterexample: with satellites included, `get_transitions` filters
on the diagram line's existence and energy, so it returns the satellite
entry `(4, 1, 1)` even though that transition's own resolved energy
(999999 eV) lies outside the inclusive range `[6000, 6500]` — the returned
list is not "exactly the transitions whose resolved energy lies in the
range". -/
theorem get_transitions_out_of_range_satellite :
    mkTransition tdSat 26 4 1 1 ∈ get_transitions tdSat 26 6000 6500 true ∧
      (mkTransition tdSat 26 4 1 1).energy_eV = 999999 ∧
      ¬((6000 : ℚ) ≤ (mkTransition tdSat 26 4 1 1).energy_eV ∧
        (mkTransition tdSat 26 4 1 1).energy_eV ≤ 6500) := by
  refine ⟨?_, by decide, by decide⟩
  decide

/-- C3 witness: the characterization applied to the concrete store `tdSat`
for z 26 with the inclusive range `[6000, 6500]` and satellites excluded:
the diagram line `(4, 1, 0)` is returned and its own energy is in range. -/
theorem get_transitions_characterization_witness :
    mkTransition tdSat 26 4 1 0 ∈ get_transitions tdSat 26 6000 6500 false ∧
      (mkTransition tdSat 26 4 1 0).satellite = 0 ∧
      (6000 : ℚ) ≤ (mkTransition tdSat 26 4 1 0).energy_eV ∧
      (mkTransition tdSat 26 4 1 0).energy_eV ≤ 6500 := by
  have hmem : mkTransition tdSat 26 4 1 0 ∈ get_transitions tdSat 26 6000 6500 false :=
    ((get_transitions_characterization tdSat 26 6000 6500 false).1 _).mpr
      ⟨by decide, rfl, Or.inr rfl, by decide, by decide, by decide⟩
  exact ⟨hmem, (get_transitions_characterization tdSat 26 6000 6500 false).2.2.2 rfl _ hmem⟩

/-! ### Notation parsing dispatch: `from_string` (`src/pyxray/transition.py`) -/

/-- The dispatch outcome of `from_string` for the notation token: a single
transition by Siegbahn symbol, an IUPAC dash pair, a grouping-table call,
or the unparseable-transition-string `ValueError`. -/
inductive FromStringAction where
  | siegbahn (tok : List Char)
  | iupac (tok : List Char)
  | group (key : List Char)
  | unparseable
  deriving DecidableEq

/-- The keys of the `_TRANSITIONSETS` dispatch dictionary, in source
order. -/
def TRANSITIONSETS_KEYS : List (List Char) :=
  [['K'], ['L'], ['M'],
   ['K', 'α'], ['K', 'β'],
   ['L', 'α'], ['L', 'β'], ['L', 'γ'],
   ['M', 'α'], ['M', 'β'], ['M', 'γ'],
   ['L', 'I'], ['L', 'I', 'I'], ['L', 'I', 'I', 'I'],
   ['M', 'I'], ['M', 'I', 'I'], ['M', 'I', 'I', 'I'], ['M', 'I', 'V'], ['M', 'V']]

/-- `SIEGBAHNS` as character lists, for token comparison. -/
def SIEGBAHNS_CHARS : List (List Char) := SIEGBAHNS.map String.data

/-- The token dispatch of `from_string` on the already-normalized token:
known Siegbahn symbol first, then IUPAC (the token contains a dash), then
the grouping dictionary, else the unparseable error. -/
def from_string_dispatch (tok : List Char) : FromStringAction :=
  if tok ∈ SIEGBAHNS_CHARS then .siegbahn tok
  else if '-' ∈ tok then .iupac tok
  else if tok ∈ TRANSITIONSETS_KEYS then .group tok
  else .unparseable

/-- The notation-token handling of `from_string`: truncate at the first
`/`, apply the `Le → Ln` alias, convert ASCII Siegbahn characters to
Unicode, then dispatch. -/
def from_string_token (tok : List Char) : FromStringAction :=
  let tok := tok.takeWhile (fun c => c ≠ '/')
  let tok := if tok = ['L', 'e'] then ['L', 'n'] else tok
  from_string_dispatch (siegbahn_ascii_to_unicode tok)

/-- C4 (amended): a normalized token that is not a known Siegbahn symbol
and contains no dash dispatches to the grouping table iff it is one of the
19 registered keywords K, L, M, Kα, Kβ, Lα, Lβ, Lγ, Mα, Mβ, Mγ, LI, LII,
LIII, MI, MII, MIII, MIV, MV — the `N` family keyword is not registered —
and raises the unparseable-transition-string error otherwise. -/
theorem from_string_dispatch_keywords (tok : List Char)
    (hs : tok ∉ SIEGBAHNS_CHARS) (hd : '-' ∉ tok) :
    (from_string_dispatch tok = .group tok ↔ tok ∈ TRANSITIONSETS_KEYS) ∧
      (tok ∉ TRANSITIONSETS_KEYS → from_string_dispatch tok = .unparseable) := by
  rw [from_string_dispatch, if_neg hs, if_neg hd]
  refine ⟨⟨?_, ?_⟩, ?_⟩
  · intro h
    by_contra hk
    rw [if_neg hk] at h
    exact absurd h (by simp)
  · intro hk
    rw [if_pos hk]
  · intro hk
    rw [if_neg hk]

/-- C4 witness: the keyword dispatch evaluated on the concrete token `K`. -/
theorem from_string_dispatch_keywords_witness :
    (from_string_dispatch ['K'] = .group ['K'] ↔ ['K'] ∈ TRANSITIONSETS_KEYS) ∧
      (['K'] ∉ TRANSITIONSETS_KEYS → from_string_dispatch ['K'] = .unparseable) :=
  from_string_dispatch_keywords ['K'] (by decide) (by decide)

/-- C4 counterexample: the token `N` normalizes to itself, is no Siegbahn
symbol, contains no dash, and is not a key of the dispatch dictionary, so
parsing `"U N"` raises the unparseable-transition-string error instead of
dispatching to the N-family grouping function. -/
theorem from_string_N_unparseable :
    from_string_token ['N'] = .unparseable ∧ ['N'] ∉ TRANSITIONSETS_KEYS := by
  refine ⟨?_, by decide⟩
  decide

/-! ### Property resolution layer (modelled from the spec) -/

/-- Modelled from the spec: `SqlEngineElementDatabase`
(`pyxray/sql/element_data.py`) is not among the sources at hand, only its
test file is. Per the specification the database keeps, per property, rows
in insertion order, each tagged with the reference bibtexkey, plus a
caller-configurable ordered `reference_priority` list. -/
structure ElementDatabase where
  symbol_rows : List (ℤ × String × String)
  weight_rows : List (ℤ × String × ℚ)
  reference_priority : List String

/-- The value of the row for the exact `(z, reference)` pair, if any. -/
def find_row {α : Type} (rows : List (ℤ × String × α)) (z : ℤ) (ref : String) : Option α :=
  (rows.find? (fun r => r.1 == z && r.2.1 == ref)).map (fun r => r.2.2)

/-- The value of the first inserted row for `z`, if any. -/
def find_any {α : Type} (rows : List (ℤ × String × α)) (z : ℤ) : Option α :=
  (rows.find? (fun r => r.1 == z)).map (fun r => r.2.2)

/-- The value from the highest-priority reference that has a row for `z`,
if any. -/
def find_priority {α : Type} : List String → List (ℤ × String × α) → ℤ → Option α
  | [], _, _ => none
  | ref :: rest, rows, z =>
    match find_row rows z ref with
    | some v => some v
    | none => find_priority rest rows z

/-- Modelled from the spec: the resolution policy of a property lookup.
With an explicit reference only the `(z, reference)` row may answer, and
its absence is an error even when other references carry rows for `z`.
Without one, the highest-priority reference possessing a row answers; when
none does (in particular with an empty priority list) the first inserted
row for `z` answers; with no row at all a not-found error is raised. -/
def db_lookup {α : Type} (rows : List (ℤ × String × α)) (priority : List String)
    (z : ℤ) (reference : Option String) : Except String α :=
  match reference with
  | some ref =>
    match find_row rows z ref with
    | some v => .ok v
    | none => .error "NoReferenceError: no row for the requested reference"
  | none =>
    match find_priority priority rows z with
    | some v => .ok v
    | none =>
      match find_any rows z with
      | some v => .ok v
      | none => .error "NotFound: no row for the subject"

/-- `SqlEngineElementDatabase.atomic_weight`. -/
def ElementDatabase.atomic_weight (db : ElementDatabase) (z : ℤ)
    (reference : Option String) : Except String ℚ :=
  db_lookup db.weight_rows db.reference_priority z reference

/-- `SqlEngineElementDatabase.symbol`. -/
def ElementDatabase.symbol (db : ElementDatabase) (z : ℤ)
    (reference : Option String) : Except String String :=
  db_lookup db.symbol_rows db.reference_priority z reference

/-- Lower-cased character sequence of a string (the case-insensitive key
of symbol lookups). -/
def strLower (s : String) : List Char :=
  s.data.map Char.toLower

/-- The atomic number of the row whose symbol matches case-insensitively
under the exact reference, if any. -/
def find_row_symbol (rows : List (ℤ × String × String)) (sym ref : String) : Option ℤ :=
  (rows.find? (fun r => strLower r.2.2 == strLower sym && r.2.1 == ref)).map (fun r => r.1)

/-- The atomic number of the first inserted row whose symbol matches
case-insensitively, if any. -/
def find_any_symbol (rows : List (ℤ × String × String)) (sym : String) : Option ℤ :=
  (rows.find? (fun r => strLower r.2.2 == strLower sym)).map (fun r => r.1)

/-- The atomic number from the highest-priority reference carrying a
matching symbol row, if any. -/
def find_priority_symbol : List String → List (ℤ × String × String) → String → Option ℤ
  | [], _, _ => none
  | ref :: rest, rows, sym =>
    match find_row_symbol rows sym ref with
    | some v => some v
    | none => find_priority_symbol rest rows sym

/-- Modelled from the spec: `SqlEngineElementDatabase.atomic_number`,
case-insensitive on the symbol, following the same resolution policy. -/
def ElementDatabase.atomic_number (db : ElementDatabase) (sym : String)
    (reference : Option String) : Except String ℤ :=
  match reference with
  | some ref =>
    match find_row_symbol db.symbol_rows sym ref with
    | some v => .ok v
    | none => .error "NoReferenceError: no row for the requested reference"
  | none =>
    match find_priority_symbol db.reference_priority db.symbol_rows sym with
    | some v => .ok v
    | none =>
      match find_any_symbol db.symbol_rows sym with
      | some v => .ok v
      | none => .error "NotFound: no row for the subject"

/-- The mock database of `test_element_data.py`: rows inserted in order for
(26, ref1), (26, ref2) and (8, ref1); priority initially empty. -/
def mock_db : ElementDatabase where
  symbol_rows := [(26, "ref1", "Fe"), (26, "ref2", "Fe"), (8, "ref1", "O")]
  weight_rows := [(26, "ref1", 55845 / 1000), (26, "ref2", 58), (8, "ref1", 159994 / 10000)]
  reference_priority := []

/-- The mock database after `db.reference_priority = ['ref2']`. -/
def mock_db_ref2 : ElementDatabase :=
  { mock_db with reference_priority := ["ref2"] }

theorem find_priority_hit {α : Type} (rows : List (ℤ × String × α)) (z : ℤ) (v : α)
    (ref : String) : ∀ (pre rest : List String),
      (∀ r ∈ pre, find_row rows z r = none) → find_row rows z ref = some v →
        find_priority (pre ++ ref :: rest) rows z = some v
  | [], rest, _, hrow => by simp [find_priority, hrow]
  | p :: pre, rest, hpre, hrow => by
    have hp := hpre p (List.mem_cons_self p pre)
    simp only [List.cons_append, find_priority, hp]
    exact find_priority_hit rows z v ref pre rest
      (fun r hr => hpre r (List.mem_cons_of_mem p hr)) hrow

theorem find_priority_none {α : Type} (rows : List (ℤ × String × α)) (z : ℤ) :
    ∀ priority : List String,
      (∀ r ∈ priority, find_row rows z r = none) → find_priority priority rows z = none
  | [], _ => rfl
  | p :: pre, hpre => by
    have hp := hpre p (List.mem_cons_self p pre)
    simp only [find_priority, hp]
    exact find_priority_none rows z pre (fun r hr => hpre r (List.mem_cons_of_mem p hr))

/-- C2: with a non-empty priority list, a priority-less lookup answers from
the highest-priority reference that has a row for the subject; a subject no
prioritized reference carries falls back to the first inserted row.
Concretely (mock database, priority [ref2]): the priority-less z 26 lookup
returns 58.0, the explicit ref1 lookup still returns 55.845, and z 8,
carried only by ref1, still resolves. -/
theorem atomic_weight_priority (db : ElementDatabase) (z : ℤ) (v : ℚ)
    (pre : List String) (ref : String) (rest : List String)
    (hp : db.reference_priority = pre ++ ref :: rest)
    (hpre : ∀ r ∈ pre, find_row db.weight_rows z r = none)
    (hrow : find_row db.weight_rows z ref = some v) :
    db.atomic_weight z none = .ok v ∧
      (∀ (db' : ElementDatabase) (z' : ℤ) (w : ℚ),
        (∀ r ∈ db'.reference_priority, find_row db'.weight_rows z' r = none) →
          find_any db'.weight_rows z' = some w → db'.atomic_weight z' none = .ok w) ∧
      mock_db_ref2.atomic_weight 26 none = .ok 58 ∧
      mock_db_ref2.atomic_weight 26 (some "ref1") = .ok (55845 / 1000) ∧
      mock_db_ref2.atomic_weight 8 none = .ok (159994 / 10000) := by
  refine ⟨?_, ?_, rfl, rfl, rfl⟩
  · rw [ElementDatabase.atomic_weight, db_lookup, hp,
      find_priority_hit db.weight_rows z v ref pre rest hpre hrow]
  · intro db' z' w hnone hany
    rw [ElementDatabase.atomic_weight, db_lookup,
      find_priority_none db'.weight_rows z' db'.reference_priority hnone, hany]

/-- C2 witness: the priority-hit clause instantiated on the mock database
with priority [ref2] and subject z 26. -/
theorem atomic_weight_priority_witness :
    mock_db_ref2.atomic_weight 26 none = .ok 58 ∧
      mock_db_ref2.atomic_weight 26 (some "ref1") = .ok (55845 / 1000) :=
  ⟨(atomic_weight_priority mock_db_ref2 26 58 [] "ref2" [] rfl (by simp) rfl).1,
    (atomic_weight_priority mock_db_ref2 26 58 [] "ref2" [] rfl (by simp) rfl).2.2.2.1⟩

/-- C6: an explicitly requested reference is never substituted: when the
store has no row for the (subject, reference) pair the lookup errors, even
though other references carry rows for the subject. Concretely z 8 is
carried only by ref1: symbol(8, ref2) and atomic_number('O', ref2) raise
while the priority-less, case-insensitive and ref1 lookups succeed. -/
theorem explicit_reference_errors (db : ElementDatabase) (z : ℤ) (ref : String)
    (h : find_row db.symbol_rows z ref = none) :
    db.symbol z (some ref) = .error "NoReferenceError: no row for the requested reference" ∧
      (∀ (db' : ElementDatabase) (sym ref' : String),
        find_row_symbol db'.symbol_rows sym ref' = none →
          db'.atomic_number sym (some ref') =
            .error "NoReferenceError: no row for the requested reference") ∧
      mock_db.symbol 8 (some "ref2") =
        .error "NoReferenceError: no row for the requested reference" ∧
      mock_db.atomic_number "O" (some "ref2") =
        .error "NoReferenceError: no row for the requested reference" ∧
      mock_db.symbol 8 none = .ok "O" ∧
      mock_db.symbol 8 (some "ref1") = .ok "O" ∧
      mock_db.atomic_number "o" none = .ok 8 := by
  refine ⟨?_, ?_, rfl, rfl, rfl, rfl, rfl⟩
  · rw [ElementDatabase.symbol, db_lookup, h]
  · intro db' sym ref' h'
    rw [ElementDatabase.atomic_number, h']

/-- C6 witness: the explicit-reference error evaluated on the mock
database for z 8 with reference ref2, next to the successful ref1 row. -/
theorem explicit_reference_errors_witness :
    mock_db.symbol 8 (some "ref2") =
        .error "NoReferenceError: no row for the requested reference" ∧
      mock_db.symbol 8 (some "ref1") = .ok "O" :=
  ⟨(explicit_reference_errors mock_db 8 "ref2" rfl).2.2.1,
    (explicit_reference_errors mock_db 8 "ref2" rfl).2.2.2.2.2.1⟩
